import Mathlib

/-!
Verification development for the chain-specification and fork-identification
core (crates/primitives/src/chain/spec.rs): the data model, the hardfork
activation predicates, the EIP-2124 fork-identifier computation, base-fee
parameter lookup, the genesis-header derivation, the display renderer and the
genesis adapter, embedded shallowly and checked against the specification.
-/

/-! ## CRC-32 fork-hash arithmetic

Modelled from the spec: the `ForkHash` type and its arithmetic live outside
the staged sources (the fork-id module of the repository); the spec's design
notes fix them: CRC-32-IEEE with the reflected polynomial 0xEDB88320, seeded
with the genesis block hash, folding each activation point as its big-endian
8-byte unsigned representation (continuing the CRC over the concatenation of
all bytes so far). -/

/-- One bit-step of the reflected CRC-32-IEEE: shift right, conditionally
xor the reflected polynomial 0xEDB88320. -/
def crc32Round (c : Nat) : Nat :=
  if c % 2 = 1 then Nat.xor (c / 2) 0xEDB88320 else c / 2

/-- Fold one byte into the running (un-finalized) CRC state. -/
def crc32Byte (c b : Nat) : Nat :=
  crc32Round (crc32Round (crc32Round (crc32Round
    (crc32Round (crc32Round (crc32Round (crc32Round (Nat.xor c b))))))))

/-- Continue a finalized CRC-32 value over further bytes: un-invert, fold
each byte, re-invert (this is what continuing the CRC of a concatenation
does, so `crcAppend (crcAppend 0 a) b = crcAppend 0 (a ++ b)`). -/
def crcAppend (crc : Nat) (bytes : List Nat) : Nat :=
  Nat.xor (bytes.foldl crc32Byte (Nat.xor crc 0xFFFFFFFF)) 0xFFFFFFFF

/-- The 8-byte big-endian representation of a 64-bit activation point. -/
def u64BE (v : Nat) : List Nat :=
  [Nat.shiftRight v 56 % 256, Nat.shiftRight v 48 % 256,
   Nat.shiftRight v 40 % 256, Nat.shiftRight v 32 % 256,
   Nat.shiftRight v 24 % 256, Nat.shiftRight v 16 % 256,
   Nat.shiftRight v 8 % 256, v % 256]

/-- `ForkHash::from(genesis_hash)`: CRC-32 of the 32 genesis-hash bytes. -/
def ForkHash.ofBytes (genesisHash : List Nat) : Nat :=
  crcAppend 0 genesisHash

/-- `ForkHash += block`: continue the CRC over the big-endian 8-byte
encoding of the activation point. -/
def ForkHash.add (h : Nat) (v : Nat) : Nat :=
  crcAppend h (u64BE v)

/-! ## Hardforks

Modelled from the spec: the `Hardfork` enumeration is declared outside the
staged sources; the spec fixes the full mainnet sequence in
protocol-historical activation order plus the Layer-2 extension forks, and
the ordered hardfork tables in the sources fix where the Layer-2 forks sit. -/

/-- Named protocol upgrades, totally ordered by activation order; the
constructor order is the canonical iteration order of the hardfork map. -/
inductive Hardfork
  | Frontier | Homestead | Dao | Tangerine | SpuriousDragon
  | Byzantium | Constantinople | Petersburg | Istanbul | MuirGlacier
  | Berlin | London | ArrowGlacier | GrayGlacier | Paris
  | Bedrock | Regolith | Shanghai | Canyon | Cancun | Ecotone
deriving DecidableEq, Repr

/-- Position of a hardfork in the canonical order (the `Ord` the B-tree map
of hardforks sorts by). -/
def Hardfork.idx : Hardfork → Nat
  | .Frontier => 0 | .Homestead => 1 | .Dao => 2 | .Tangerine => 3
  | .SpuriousDragon => 4 | .Byzantium => 5 | .Constantinople => 6
  | .Petersburg => 7 | .Istanbul => 8 | .MuirGlacier => 9 | .Berlin => 10
  | .London => 11 | .ArrowGlacier => 12 | .GrayGlacier => 13 | .Paris => 14
  | .Bedrock => 15 | .Regolith => 16 | .Shanghai => 17 | .Canyon => 18
  | .Cancun => 19 | .Ecotone => 20

/-- The hardfork's display name (the `Display` of the enumeration prints the
variant name). -/
def Hardfork.name : Hardfork → String
  | .Frontier => "Frontier" | .Homestead => "Homestead" | .Dao => "Dao"
  | .Tangerine => "Tangerine" | .SpuriousDragon => "SpuriousDragon"
  | .Byzantium => "Byzantium" | .Constantinople => "Constantinople"
  | .Petersburg => "Petersburg" | .Istanbul => "Istanbul"
  | .MuirGlacier => "MuirGlacier" | .Berlin => "Berlin" | .London => "London"
  | .ArrowGlacier => "ArrowGlacier" | .GrayGlacier => "GrayGlacier"
  | .Paris => "Paris" | .Bedrock => "Bedrock" | .Regolith => "Regolith"
  | .Shanghai => "Shanghai" | .Canyon => "Canyon" | .Cancun => "Cancun"
  | .Ecotone => "Ecotone"

/-! ## Fork conditions and heads -/

/-- `ForkCondition`: the condition at which a fork is activated
(spec.rs, `enum ForkCondition`). 256-bit difficulties are embedded as `Nat`
(no operation here overflows 256 bits). -/
inductive ForkCondition
  /-- The fork is activated after a certain block. -/
  | Block (block : Nat)
  /-- The fork is activated after a total difficulty has been reached;
  `fork_block` is the block number at which TTD is reached, if known. -/
  | TTD (fork_block : Option Nat) (total_difficulty : Nat)
  /-- The fork is activated after a specific timestamp. -/
  | Timestamp (timestamp : Nat)
  /-- The fork is never activated. -/
  | Never
deriving DecidableEq, Repr

/-- `Head`: a snapshot of the chain tip. Modelled from the spec: the struct
is declared outside the staged sources; the spec fixes its fields
`{number, hash, timestamp, total_difficulty, difficulty}`. -/
structure Head where
  number : Nat
  hash : Nat
  timestamp : Nat
  difficulty : Nat
  total_difficulty : Nat
deriving DecidableEq, Repr

/-- `U256::saturating_sub`: on `Nat`, truncated subtraction is exactly
saturating subtraction (zero on underflow, never wrapping). -/
def u256_saturating_sub (a b : Nat) : Nat := a - b

/-- `ForkCondition::active_at_block` (spec.rs): satisfied at `current_block`
for `Block(block)` or `TTD {fork_block: Some(block), ..}` with
`current_block >= block`. -/
def ForkCondition.active_at_block (c : ForkCondition) (current_block : Nat) : Bool :=
  match c with
  | .Block block => decide (block ≤ current_block)
  | .TTD (some block) _ => decide (block ≤ current_block)
  | _ => false

/-- `ForkCondition::transitions_at_block` (spec.rs): `Block(block)` with
`current_block == block`. -/
def ForkCondition.transitions_at_block (c : ForkCondition) (current_block : Nat) : Bool :=
  match c with
  | .Block block => decide (current_block = block)
  | _ => false

/-- `ForkCondition::active_at_ttd` (spec.rs): for a TTD condition, the
previous total difficulty `ttd.saturating_sub(difficulty)` is at or above
the threshold; false for any other condition. -/
def ForkCondition.active_at_ttd (c : ForkCondition) (ttd difficulty : Nat) : Bool :=
  match c with
  | .TTD _ total_difficulty => decide (total_difficulty ≤ u256_saturating_sub ttd difficulty)
  | _ => false

/-- `ForkCondition::active_at_timestamp` (spec.rs): `Timestamp(time)` with
`timestamp >= time`. -/
def ForkCondition.active_at_timestamp (c : ForkCondition) (timestamp : Nat) : Bool :=
  match c with
  | .Timestamp time => decide (time ≤ timestamp)
  | _ => false

/-- `ForkCondition::active_at_head` (spec.rs): disjunction of the block,
timestamp and total-difficulty predicates on the head's fields. -/
def ForkCondition.active_at_head (c : ForkCondition) (head : Head) : Bool :=
  c.active_at_block head.number ||
    c.active_at_timestamp head.timestamp ||
    c.active_at_ttd head.total_difficulty head.difficulty

/-- `ForkCondition::ttd` (spec.rs). -/
def ForkCondition.ttd_of : ForkCondition → Option Nat
  | .TTD _ total_difficulty => some total_difficulty
  | _ => none

/-- `ForkCondition::as_timestamp` (spec.rs). -/
def ForkCondition.as_timestamp : ForkCondition → Option Nat
  | .Timestamp timestamp => some timestamp
  | _ => none

/-- `ForkCondition::is_timestamp` (spec.rs). -/
def ForkCondition.is_timestamp : ForkCondition → Bool
  | .Timestamp _ => true
  | _ => false

/-- The block point the fork-id block pass pattern-matches
(`ForkCondition::Block(block) | ForkCondition::TTD {fork_block: Some(block), ..}`
in `ChainSpec::fork_id`). -/
def forkBlockPoint : ForkCondition → Option Nat
  | .Block block => some block
  | .TTD (some block) _ => some block
  | _ => none

/-! ## Fork identifier and fork filter -/

/-- EIP-2124 `ForkId {hash, next}`: the fork hash (a CRC-32 value) and the
activation point of the next upcoming fork (0 if none). -/
structure ForkId where
  hash : Nat
  next : Nat
deriving DecidableEq, Repr

/-- `ForkFilterKey` (spec §4.5): canonicalized activation anchor. -/
inductive ForkFilterKey
  | Block (block : Nat)
  | Time (time : Nat)
deriving DecidableEq, Repr

/-- Modelled from the spec: `ForkFilter::new` is the external fork-filter
constructor (outside the staged sources); the spec says it receives the key
stream, the head, the genesis hash and the genesis timestamp, so it is
modelled as recording exactly those inputs. -/
structure ForkFilter where
  head : Head
  genesisHash : List Nat
  genesisTimestamp : Nat
  forks : List ForkFilterKey
deriving DecidableEq, Repr

/-! ## Base-fee parameters -/

/-- `BaseFeeParams` (spec.rs): the EIP-1559 block base-fee computation
parameters. -/
structure BaseFeeParams where
  max_change_denominator : Nat
  elasticity_multiplier : Nat
deriving DecidableEq, Repr

/-- `EIP1559_DEFAULT_BASE_FEE_MAX_CHANGE_DENOMINATOR` (constant imported by
spec.rs; value 8 per EIP-1559). -/
def EIP1559_DEFAULT_BASE_FEE_MAX_CHANGE_DENOMINATOR : Nat := 8

/-- `EIP1559_DEFAULT_ELASTICITY_MULTIPLIER` (constant imported by spec.rs;
value 2 per EIP-1559). -/
def EIP1559_DEFAULT_ELASTICITY_MULTIPLIER : Nat := 2

/-- `EIP1559_INITIAL_BASE_FEE` (constant imported by spec.rs; value 10^9 per
EIP-1559). -/
def EIP1559_INITIAL_BASE_FEE : Nat := 1000000000

/-- `BaseFeeParams::ethereum()` (spec.rs). -/
def BaseFeeParams.ethereum : BaseFeeParams :=
  { max_change_denominator := EIP1559_DEFAULT_BASE_FEE_MAX_CHANGE_DENOMINATOR,
    elasticity_multiplier := EIP1559_DEFAULT_ELASTICITY_MULTIPLIER }

/-- `BaseFeeParamsKind` (spec.rs): constant or hardfork-indexed EIP-1559
parameters; the `Variable` list (`ForkBaseFeeParams`) is sorted by hardfork
activation order. -/
inductive BaseFeeParamsKind
  | Constant (params : BaseFeeParams)
  | Variable (params : List (Hardfork × BaseFeeParams))
deriving DecidableEq, Repr

/-! ## Genesis document and chain specification -/

/-- Modelled from the spec: the genesis `config` sub-object (external
interface §6) with the optional block-numbered hardfork fields, TTD,
merge-netsplit block and Shanghai/Cancun timestamps. -/
structure ChainConfig where
  chain_id : Nat
  homestead_block : Option Nat
  dao_fork_block : Option Nat
  eip150_block : Option Nat
  eip155_block : Option Nat
  byzantium_block : Option Nat
  constantinople_block : Option Nat
  petersburg_block : Option Nat
  istanbul_block : Option Nat
  muir_glacier_block : Option Nat
  berlin_block : Option Nat
  london_block : Option Nat
  arrow_glacier_block : Option Nat
  gray_glacier_block : Option Nat
  merge_netsplit_block : Option Nat
  terminal_total_difficulty : Option Nat
  shanghai_time : Option Nat
  cancun_time : Option Nat
deriving DecidableEq, Repr

/-- Modelled from the spec: the genesis document (external interface §6);
the trie-hashed account allocation is out of scope and omitted. -/
structure Genesis where
  config : ChainConfig
  nonce : Nat
  timestamp : Nat
  extra_data : List Nat
  gas_limit : Nat
  difficulty : Nat
  mix_hash : Nat
  coinbase : Nat
  base_fee_per_gas : Option Nat
  blob_gas_used : Option Nat
  excess_blob_gas : Option Nat
deriving DecidableEq, Repr

/-- `ForkTimestamps` (spec.rs): cached copies of the timestamp activations. -/
structure ForkTimestamps where
  shanghai : Option Nat
  cancun : Option Nat
  regolith : Option Nat
  canyon : Option Nat
  ecotone : Option Nat
deriving DecidableEq, Repr

/-- `ForkTimestamps::default()`. -/
def ForkTimestamps.default : ForkTimestamps :=
  { shanghai := none, cancun := none, regolith := none, canyon := none, ecotone := none }

/-- `DepositContract` (spec.rs): PoS deposit contract details. -/
structure DepositContract where
  address : Nat
  block : Nat
  topic : Nat
deriving DecidableEq, Repr

/-- Lookup in the B-tree map of hardforks (`BTreeMap::get`), embedded as an
association list whose order is the map's canonical iteration order. -/
def btreeLookup : List (Hardfork × ForkCondition) → Hardfork → Option ForkCondition
  | [], _ => none
  | (k, v) :: rest, key => if key = k then some v else btreeLookup rest key

/-- Insertion into the B-tree map of hardforks (`BTreeMap::insert`): replaces
the value at an existing key, otherwise adds the entry at its sorted
position (sorted by the canonical hardfork order). -/
def btreeInsert (k : Hardfork) (v : ForkCondition) :
    List (Hardfork × ForkCondition) → List (Hardfork × ForkCondition)
  | [] => [(k, v)]
  | (k', v') :: rest =>
    if k = k' then (k, v) :: rest
    else if k.idx < k'.idx then (k, v) :: (k', v') :: rest
    else (k', v') :: btreeInsert k v rest

/-- `ChainSpec` (spec.rs): the chain specification. `genesisHash` embeds the
resolved `genesis_hash()` value (the cached hash of well-known chains; the
uncached fallback recomputes the keccak hash of the genesis header, which is
external to the staged sources and out of scope). -/
structure ChainSpec where
  chain : Nat
  genesisHash : List Nat
  genesis : Genesis
  paris_block_and_final_difficulty : Option (Nat × Nat)
  fork_timestamps : ForkTimestamps
  hardforks : List (Hardfork × ForkCondition)
  deposit_contract : Option DepositContract
  baseFeeParams : BaseFeeParamsKind
  prune_delete_limit : Nat
  snapshot_block_interval : Nat
deriving DecidableEq, Repr

/-- `ChainSpec::fork` (spec.rs): the condition for the given fork, `Never`
if absent. -/
def ChainSpec.fork (s : ChainSpec) (fork : Hardfork) : ForkCondition :=
  (btreeLookup s.hardforks fork).getD ForkCondition.Never

/-- `ChainSpec::genesis_timestamp` (spec.rs). -/
def ChainSpec.genesis_timestamp (s : ChainSpec) : Nat :=
  s.genesis.timestamp

/-- `ChainSpec::is_fork_active_at_timestamp` (spec.rs). -/
def ChainSpec.is_fork_active_at_timestamp (s : ChainSpec) (fork : Hardfork)
    (timestamp : Nat) : Bool :=
  (s.fork fork).active_at_timestamp timestamp

/-- `ChainSpec::is_shanghai_active_at_timestamp` (spec.rs): cache-aware fast
path falling back to the map. -/
def ChainSpec.is_shanghai_active_at_timestamp (s : ChainSpec) (timestamp : Nat) : Bool :=
  match s.fork_timestamps.shanghai with
  | some shanghai => decide (shanghai ≤ timestamp)
  | none => s.is_fork_active_at_timestamp .Shanghai timestamp

/-- `ChainSpec::is_cancun_active_at_timestamp` (spec.rs). -/
def ChainSpec.is_cancun_active_at_timestamp (s : ChainSpec) (timestamp : Nat) : Bool :=
  match s.fork_timestamps.cancun with
  | some cancun => decide (cancun ≤ timestamp)
  | none => s.is_fork_active_at_timestamp .Cancun timestamp

/-- `ChainSpec::base_fee_params` (spec.rs): constant parameters, or the
reverse walk through the variable table returning the first entry whose
hardfork is active at the timestamp, falling back to the first entry and
then to the Ethereum defaults. -/
def ChainSpec.base_fee_params (s : ChainSpec) (timestamp : Nat) : BaseFeeParams :=
  match s.baseFeeParams with
  | .Constant bf_params => bf_params
  | .Variable bf_params =>
    match bf_params.reverse.find? (fun e => s.is_fork_active_at_timestamp e.1 timestamp) with
    | some e => e.2
    | none => ((bf_params.head?).map Prod.snd).getD BaseFeeParams.ethereum

/-- `ChainSpec::initial_base_fee` (spec.rs): defined iff London is active at
block 0; the genesis base fee or the EIP-1559 initial base fee. -/
def ChainSpec.initial_base_fee (s : ChainSpec) : Option Nat :=
  if (s.fork .London).active_at_block 0 then
    some (s.genesis.base_fee_per_gas.getD EIP1559_INITIAL_BASE_FEE)
  else none

/-- `ChainSpec::final_paris_total_difficulty` (spec.rs). -/
def ChainSpec.final_paris_total_difficulty (s : ChainSpec) (block_number : Nat) : Option Nat :=
  s.paris_block_and_final_difficulty.bind fun p =>
    if p.1 ≤ block_number then some p.2 else none

/-! ## The EIP-2124 fork-identifier engine -/

/-- The block-based pass of `ChainSpec::fork_id` (spec.rs): walk the
hardforks in canonical order; a `Block`/known-TTD condition that is active
folds its block (when it differs from the last applied point), the first
inactive one returns the fork id with that block as `next`; other conditions
are skipped.  Returns either the final `(forkhash, current_applied)`
accumulator or the early-returned fork id. -/
def fork_id_block_pass (head : Head) :
    List (Hardfork × ForkCondition) → Nat → Nat → Sum (Nat × Nat) ForkId
  | [], forkhash, current_applied => Sum.inl (forkhash, current_applied)
  | (_, cond) :: rest, forkhash, current_applied =>
    match forkBlockPoint cond with
    | some block =>
      if cond.active_at_head head then
        if block ≠ current_applied then
          fork_id_block_pass head rest (ForkHash.add forkhash block) block
        else
          fork_id_block_pass head rest forkhash current_applied
      else
        Sum.inr { hash := forkhash, next := block }
    | none => fork_id_block_pass head rest forkhash current_applied

/-- The timestamp-based pass of `ChainSpec::fork_id` (spec.rs): over the
stream of timestamp activations strictly greater than the genesis timestamp,
fold each active timestamp (deduplicated against the last applied point) and
return the first inactive one as `next`. -/
def fork_id_time_pass (head : Head) : List Nat → Nat → Nat → ForkId
  | [], forkhash, _ => { hash := forkhash, next := 0 }
  | timestamp :: rest, forkhash, current_applied =>
    if (ForkCondition.Timestamp timestamp).active_at_head head then
      if timestamp ≠ current_applied then
        fork_id_time_pass head rest (ForkHash.add forkhash timestamp) timestamp
      else
        fork_id_time_pass head rest forkhash current_applied
    else
      { hash := forkhash, next := timestamp }

/-- The stream of timestamp activations `ChainSpec::fork_id` iterates in its
second loop: each `as_timestamp()` of the hardfork map filtered to be
strictly greater than the genesis timestamp. -/
def ChainSpec.timestampPoints (s : ChainSpec) : List Nat :=
  s.hardforks.filterMap fun e =>
    (e.2.as_timestamp).filter fun time => decide (s.genesis.timestamp < time)

/-- `ChainSpec::fork_id` (spec.rs): seed the fork hash with the genesis
hash, run the block-based pass over all hardforks, then the timestamp-based
pass, with `current_applied` starting at 0. -/
def ChainSpec.fork_id (s : ChainSpec) (head : Head) : ForkId :=
  match fork_id_block_pass head s.hardforks (ForkHash.ofBytes s.genesisHash) 0 with
  | Sum.inr fid => fid
  | Sum.inl (forkhash, current_applied) =>
    fork_id_time_pass head s.timestampPoints forkhash current_applied

/-- `ChainSpec::fork_filter` (spec.rs): the key stream (`Block` for
block-based and known-block TTD forks, `Time` for timestamp forks, plain TTD
and `Never` skipped) passed to the external fork-filter constructor. -/
def ChainSpec.fork_filter (s : ChainSpec) (head : Head) : ForkFilter :=
  { head := head,
    genesisHash := s.genesisHash,
    genesisTimestamp := s.genesis_timestamp,
    forks := s.hardforks.filterMap fun e =>
      match e.2 with
      | .Block block => some (ForkFilterKey.Block block)
      | .Timestamp time => some (ForkFilterKey.Time time)
      | .TTD (some block) _ => some (ForkFilterKey.Block block)
      | _ => none }

/-- `ChainSpec::last_block_fork_before_merge_or_timestamp` (spec.rs): walk
the forks with one-element look-ahead; at the first TTD look-ahead return
its known fork block, or the current fork's block number when the look-ahead
is an unknown-block TTD or a timestamp fork and the current fork is
block-based; otherwise keep walking. -/
def lastBlockForkAux : List (Hardfork × ForkCondition) → Option Nat
  | (_, curr_cond) :: (hf2, next_cond) :: rest =>
    (match next_cond with
     | .TTD (some fork_block) _ => some fork_block
     | .TTD none _ =>
       match curr_cond with
       | .Block block_num => some block_num
       | _ => lastBlockForkAux ((hf2, next_cond) :: rest)
     | .Timestamp _ =>
       match curr_cond with
       | .Block block_num => some block_num
       | _ => lastBlockForkAux ((hf2, next_cond) :: rest)
     | _ => lastBlockForkAux ((hf2, next_cond) :: rest))
  | _ => none

/-- `ChainSpec::last_block_fork_before_merge_or_timestamp` over the spec's
hardfork map. -/
def ChainSpec.last_block_fork_before_merge_or_timestamp (s : ChainSpec) : Option Nat :=
  lastBlockForkAux s.hardforks

/-- The all-zero head the `Head::default()` of `satisfy` starts from. -/
def Head.zero : Head :=
  { number := 0, hash := 0, timestamp := 0, difficulty := 0, total_difficulty := 0 }

/-- `ChainSpec::satisfy` (spec.rs): a head that satisfies the condition —
the block number for `Block`, the timestamp (plus the last block fork before
the merge, when one exists) for `Timestamp`, the threshold for `TTD`.  The
`Never` arm is `unreachable!` in the source and is embedded as `none`. -/
def ChainSpec.satisfy (s : ChainSpec) (cond : ForkCondition) : Option Head :=
  match cond with
  | .Block number => some { Head.zero with number := number }
  | .Timestamp timestamp =>
    match s.last_block_fork_before_merge_or_timestamp with
    | some last_block_num =>
      some { Head.zero with timestamp := timestamp, number := last_block_num }
    | none => some { Head.zero with timestamp := timestamp }
  | .TTD _ total_difficulty => some { Head.zero with total_difficulty := total_difficulty }
  | .Never => none

/-- `ChainSpec::hardfork_fork_id` (spec.rs): `None` for a `Never` condition,
otherwise the fork id at the synthesized head satisfying the condition. -/
def ChainSpec.hardfork_fork_id (s : ChainSpec) (fork : Hardfork) : Option ForkId :=
  match s.fork fork with
  | .Never => none
  | c => (s.satisfy c).map fun head => s.fork_id head

/-- `ChainSpec::hardfork_fork_filter` (spec.rs): `None` for a `Never`
condition, otherwise the fork filter at the synthesized head. -/
def ChainSpec.hardfork_fork_filter (s : ChainSpec) (fork : Hardfork) : Option ForkFilter :=
  match s.fork fork with
  | .Never => none
  | c => (s.satisfy c).map fun head => s.fork_filter head

/-! ## Genesis header derivation -/

/-- `EMPTY_WITHDRAWALS` (constant imported by spec.rs): the trie root of an
empty withdrawals list. -/
def EMPTY_WITHDRAWALS : Nat :=
  0x56e81f171bcc55a6ff8345e692c0f86e5b48e01b996cadc001622fb5e363b421

/-- `EMPTY_TRANSACTIONS` (constant imported by spec.rs): the trie root of an
empty transactions list. -/
def EMPTY_TRANSACTIONS : Nat :=
  0x56e81f171bcc55a6ff8345e692c0f86e5b48e01b996cadc001622fb5e363b421

/-- `EMPTY_RECEIPTS` (constant imported by spec.rs). -/
def EMPTY_RECEIPTS : Nat :=
  0x56e81f171bcc55a6ff8345e692c0f86e5b48e01b996cadc001622fb5e363b421

/-- `EMPTY_OMMER_ROOT_HASH` (constant imported by spec.rs). -/
def EMPTY_OMMER_ROOT_HASH : Nat :=
  0x1dcc4de8dec75d7aab85b567b6ccd41ad312451b948a7413f0a142fd40d49347

/-- `Header`: the block header fields `ChainSpec::genesis_header` sets.
Modelled from the spec: the struct is declared outside the staged sources;
the state root (external trie utility) and the logs bloom are out of scope
and omitted. -/
structure Header where
  parent_hash : Nat
  number : Nat
  transactions_root : Nat
  ommers_hash : Nat
  receipts_root : Nat
  gas_limit : Nat
  difficulty : Nat
  nonce : Nat
  extra_data : List Nat
  timestamp : Nat
  mix_hash : Nat
  beneficiary : Nat
  gas_used : Nat
  base_fee_per_gas : Option Nat
  withdrawals_root : Option Nat
  parent_beacon_block_root : Option Nat
  blob_gas_used : Option Nat
  excess_blob_gas : Option Nat
deriving DecidableEq, Repr

/-- `ChainSpec::genesis_header` (spec.rs): derive the genesis block header —
empty roots, fields copied from the genesis document, the initial base fee,
the empty-withdrawals root iff Shanghai is active at the genesis timestamp,
and the Cancun triple (zero parent beacon root, blob gas values defaulted to
0) iff Cancun is active at the genesis timestamp. -/
def ChainSpec.genesis_header (s : ChainSpec) : Header :=
  let base_fee_per_gas := s.initial_base_fee
  let withdrawals_root :=
    if (s.fork .Shanghai).active_at_timestamp s.genesis.timestamp then
      some EMPTY_WITHDRAWALS
    else none
  let cancun_fields :=
    if (s.fork .Cancun).active_at_timestamp s.genesis.timestamp then
      (some 0, some (s.genesis.blob_gas_used.getD 0), some (s.genesis.excess_blob_gas.getD 0))
    else (none, none, none)
  { parent_hash := 0,
    number := 0,
    transactions_root := EMPTY_TRANSACTIONS,
    ommers_hash := EMPTY_OMMER_ROOT_HASH,
    receipts_root := EMPTY_RECEIPTS,
    gas_limit := s.genesis.gas_limit,
    difficulty := s.genesis.difficulty,
    nonce := s.genesis.nonce,
    extra_data := s.genesis.extra_data,
    timestamp := s.genesis.timestamp,
    mix_hash := s.genesis.mix_hash,
    beneficiary := s.genesis.coinbase,
    gas_used := 0,
    base_fee_per_gas := base_fee_per_gas,
    withdrawals_root := withdrawals_root,
    parent_beacon_block_root := cancun_fields.1,
    blob_gas_used := cancun_fields.2.1,
    excess_blob_gas := cancun_fields.2.2 }

/-! ## Display renderer -/

/-- `DisplayFork` (spec.rs): a pretty-printed hardfork. -/
structure DisplayFork where
  name : String
  activated_at : ForkCondition
  eip : Option String
deriving DecidableEq, Repr

/-- `format!("{:32}", s)`: left-aligned, space-padded to width 32. -/
def padTo32 (s : String) : String :=
  s ++ String.mk (List.replicate (32 - s.length) ' ')

/-- The name with the optional EIP attached
(`"{name} ({eip})"` when an EIP is present). -/
def DisplayFork.name_with_eip (df : DisplayFork) : String :=
  match df.eip with
  | some eip => df.name ++ " (" ++ eip ++ ")"
  | none => df.name

/-- The `Display` implementation of `DisplayFork` (spec.rs): block and
timestamp forks print `{name:32} @{at}`; TTD forks print
`{name:32} @{ttd} (network is [not] known to be merged)` (with a trailing
newline from `writeln!`) depending on the presence of `fork_block`.  The
`Never` arm is `unreachable!` in the source and is embedded as `none`. -/
def DisplayFork.fmt (df : DisplayFork) : Option String :=
  match df.activated_at with
  | .Block block => some (padTo32 df.name_with_eip ++ " @" ++ toString block)
  | .Timestamp time => some (padTo32 df.name_with_eip ++ " @" ++ toString time)
  | .TTD fork_block total_difficulty =>
    some (padTo32 df.name_with_eip ++ " @" ++ toString total_difficulty ++ " (" ++
      (if fork_block.isSome then "network is known to be merged"
       else "network is not known to be merged") ++ ")\n")
  | .Never => none

/-- `DisplayHardforks` (spec.rs): the pre-merge / merge / post-merge
partition of the fork set. -/
structure DisplayHardforks where
  pre_merge : List DisplayFork
  with_merge : List DisplayFork
  post_merge : List DisplayFork
deriving DecidableEq, Repr

/-- `DisplayHardforks::new` (spec.rs): partition the hardforks in canonical
order — `Block` conditions to the pre-merge group, `TTD` conditions to the
merge group with `fork_block` replaced by the known Paris block,
`Timestamp` conditions to the post-merge group, `Never` skipped. -/
def DisplayHardforks.new (hardforks : List (Hardfork × ForkCondition))
    (known_paris_block : Option Nat) : DisplayHardforks :=
  match hardforks with
  | [] => { pre_merge := [], with_merge := [], post_merge := [] }
  | (fork, condition) :: rest =>
    let d := DisplayHardforks.new rest known_paris_block
    let display_fork : DisplayFork :=
      { name := fork.name, activated_at := condition, eip := none }
    match condition with
    | .Block _ => { d with pre_merge := display_fork :: d.pre_merge }
    | .TTD _ total_difficulty =>
      { d with with_merge :=
        { display_fork with
          activated_at := ForkCondition.TTD known_paris_block total_difficulty }
        :: d.with_merge }
    | .Timestamp _ => { d with post_merge := display_fork :: d.post_merge }
    | .Never => d

/-- `ChainSpec::display_hardforks` (spec.rs). -/
def ChainSpec.display_hardforks (s : ChainSpec) : DisplayHardforks :=
  DisplayHardforks.new s.hardforks
    (s.paris_block_and_final_difficulty.map fun p => p.1)

/-! ## The genesis adapter (`impl From<Genesis> for ChainSpec`) -/

/-- The block-numbered hardfork fields of the genesis config, in the order
the adapter reads them (spec.rs, `hardfork_opts`); the table starts at
Homestead. -/
def hardfork_opts (genesis : Genesis) : List (Hardfork × Option Nat) :=
  [(.Homestead, genesis.config.homestead_block),
   (.Dao, genesis.config.dao_fork_block),
   (.Tangerine, genesis.config.eip150_block),
   (.SpuriousDragon, genesis.config.eip155_block),
   (.Byzantium, genesis.config.byzantium_block),
   (.Constantinople, genesis.config.constantinople_block),
   (.Petersburg, genesis.config.petersburg_block),
   (.Istanbul, genesis.config.istanbul_block),
   (.MuirGlacier, genesis.config.muir_glacier_block),
   (.Berlin, genesis.config.berlin_block),
   (.London, genesis.config.london_block),
   (.ArrowGlacier, genesis.config.arrow_glacier_block),
   (.GrayGlacier, genesis.config.gray_glacier_block)]

/-- `ForkTimestamps::from_hardforks` (spec.rs): the cached Shanghai, Cancun,
Regolith, Canyon and Ecotone timestamps scanned from a hardfork map. -/
def ForkTimestamps.from_hardforks (forks : List (Hardfork × ForkCondition)) : ForkTimestamps :=
  { shanghai := (btreeLookup forks .Shanghai).bind ForkCondition.as_timestamp,
    cancun := (btreeLookup forks .Cancun).bind ForkCondition.as_timestamp,
    regolith := (btreeLookup forks .Regolith).bind ForkCondition.as_timestamp,
    canyon := (btreeLookup forks .Canyon).bind ForkCondition.as_timestamp,
    ecotone := (btreeLookup forks .Ecotone).bind ForkCondition.as_timestamp }

/-- Collect a list of `(hardfork, condition)` entries into the B-tree map by
inserting them in order (`collect::<BTreeMap<_, _>>()` / `extend`). -/
def btreeCollect (entries : List (Hardfork × ForkCondition))
    (m : List (Hardfork × ForkCondition)) : List (Hardfork × ForkCondition) :=
  entries.foldl (fun acc e => btreeInsert e.1 e.2 acc) m

/-- The hardfork map `impl From<Genesis> for ChainSpec` builds (spec.rs):
block-numbered fields that are present become `Block` conditions (starting
at Homestead), a present TTD inserts Paris as a `TTD` condition with the
optional merge-netsplit block, and present Shanghai/Cancun times become
`Timestamp` conditions. -/
def from_genesis_hardforks (genesis : Genesis) : List (Hardfork × ForkCondition) :=
  let hardforks0 := btreeCollect
    ((hardfork_opts genesis).filterMap fun e =>
      e.2.map fun block => (e.1, ForkCondition.Block block)) []
  let hardforks1 :=
    match genesis.config.terminal_total_difficulty with
    | some ttd =>
      btreeInsert .Paris
        (ForkCondition.TTD genesis.config.merge_netsplit_block ttd) hardforks0
    | none => hardforks0
  let time_hardforks :=
    ([(Hardfork.Shanghai, genesis.config.shanghai_time),
      (Hardfork.Cancun, genesis.config.cancun_time)]).filterMap fun e =>
      e.2.map fun time => (e.1, ForkCondition.Timestamp time)
  btreeCollect time_hardforks hardforks1

/-- `impl From<Genesis> for ChainSpec` (spec.rs): the hardfork map above;
the timestamp cache is scanned from it; the genesis hash cache, Paris block
and deposit contract stay empty and the base-fee parameters default.  The
resolved genesis hash (external keccak, out of scope) is embedded as the
empty byte string. -/
def ChainSpec.from_genesis (genesis : Genesis) : ChainSpec :=
  { chain := genesis.config.chain_id,
    genesisHash := [],
    genesis := genesis,
    paris_block_and_final_difficulty := none,
    fork_timestamps := ForkTimestamps.from_hardforks (from_genesis_hardforks genesis),
    hardforks := from_genesis_hardforks genesis,
    deposit_contract := none,
    baseFeeParams := BaseFeeParamsKind.Constant BaseFeeParams.ethereum,
    prune_delete_limit := 3500,
    snapshot_block_interval := 0 }

/-! ## Well-known chain specifications -/

/-- The 32 bytes of the mainnet genesis hash
`d4e56740f876aef8c010b86a40d5f56745a118d0906a34e69aec8c0db1cb8fa3`
(the cached `genesis_hash` of the `MAINNET` static, spec.rs). -/
def mainnetGenesisHashBytes : List Nat :=
  [0xd4, 0xe5, 0x67, 0x40, 0xf8, 0x76, 0xae, 0xf8,
   0xc0, 0x10, 0xb8, 0x6a, 0x40, 0xd5, 0xf5, 0x67,
   0x45, 0xa1, 0x18, 0xd0, 0x90, 0x6a, 0x34, 0xe6,
   0x9a, 0xec, 0x8c, 0x0d, 0xb1, 0xcb, 0x8f, 0xa3]

/-- Modelled from the spec: the mainnet genesis resource file
(`res/genesis/mainnet.json`) is not among the staged sources; only its
timestamp (0, the mainnet genesis timestamp) bears on the claims — the
remaining fields are embedded as zero/absent. -/
def mainnetGenesis : Genesis :=
  { config :=
    { chain_id := 1, homestead_block := none, dao_fork_block := none,
      eip150_block := none, eip155_block := none, byzantium_block := none,
      constantinople_block := none, petersburg_block := none,
      istanbul_block := none, muir_glacier_block := none, berlin_block := none,
      london_block := none, arrow_glacier_block := none,
      gray_glacier_block := none, merge_netsplit_block := none,
      terminal_total_difficulty := none, shanghai_time := none,
      cancun_time := none },
    nonce := 0x42, timestamp := 0, extra_data := [], gas_limit := 5000,
    difficulty := 0x400000000, mix_hash := 0, coinbase := 0,
    base_fee_per_gas := none, blob_gas_used := none, excess_blob_gas := none }

/-- The hardfork table of the `MAINNET` static (spec.rs, lines 37–61). -/
def mainnetHardforks : List (Hardfork × ForkCondition) :=
  [(.Frontier, .Block 0),
   (.Homestead, .Block 1150000),
   (.Dao, .Block 1920000),
   (.Tangerine, .Block 2463000),
   (.SpuriousDragon, .Block 2675000),
   (.Byzantium, .Block 4370000),
   (.Constantinople, .Block 7280000),
   (.Petersburg, .Block 7280000),
   (.Istanbul, .Block 9069000),
   (.MuirGlacier, .Block 9200000),
   (.Berlin, .Block 12244000),
   (.London, .Block 12965000),
   (.ArrowGlacier, .Block 13773000),
   (.GrayGlacier, .Block 15050000),
   (.Paris, .TTD none 58750000000000000000000),
   (.Shanghai, .Timestamp 1681338455),
   (.Cancun, .Timestamp 1710338135)]

/-- The `MAINNET` static (spec.rs): the Ethereum mainnet specification. -/
def MAINNET : ChainSpec :=
  { chain := 1,
    genesisHash := mainnetGenesisHashBytes,
    genesis := mainnetGenesis,
    paris_block_and_final_difficulty := some (15537394, 58750003716598352816469),
    fork_timestamps :=
      { ForkTimestamps.default with shanghai := some 1681338455, cancun := some 1710338135 },
    hardforks := mainnetHardforks,
    deposit_contract := some
      { address := 0x00000000219ab540356cbb839cbe05303d7705fa,
        block := 11052984,
        topic := 0x649bbc62d0e31342afea4e5cd82d4049e7e1ee912fc0889aa790803be39038c5 },
    baseFeeParams := BaseFeeParamsKind.Constant BaseFeeParams.ethereum,
    prune_delete_limit := 3500,
    snapshot_block_interval := 500000 }

/-- The hardfork table of the `GOERLI` static (spec.rs, lines 87–105). -/
def goerliHardforks : List (Hardfork × ForkCondition) :=
  [(.Frontier, .Block 0), (.Homestead, .Block 0), (.Dao, .Block 0),
   (.Tangerine, .Block 0), (.SpuriousDragon, .Block 0), (.Byzantium, .Block 0),
   (.Constantinople, .Block 0), (.Petersburg, .Block 0),
   (.Istanbul, .Block 1561651), (.Berlin, .Block 4460644),
   (.London, .Block 5062605), (.Paris, .TTD none 10790000),
   (.Shanghai, .Timestamp 1678832736), (.Cancun, .Timestamp 1705473120)]

/-- The hardfork table of the `SEPOLIA` static (spec.rs, lines 131–153). -/
def sepoliaHardforks : List (Hardfork × ForkCondition) :=
  [(.Frontier, .Block 0), (.Homestead, .Block 0), (.Dao, .Block 0),
   (.Tangerine, .Block 0), (.SpuriousDragon, .Block 0), (.Byzantium, .Block 0),
   (.Constantinople, .Block 0), (.Petersburg, .Block 0), (.Istanbul, .Block 0),
   (.MuirGlacier, .Block 0), (.Berlin, .Block 0), (.London, .Block 0),
   (.Paris, .TTD (some 1735371) 17000000000000000),
   (.Shanghai, .Timestamp 1677557088), (.Cancun, .Timestamp 1706655072)]

/-- The hardfork table of the `HOLESKY` static (spec.rs, lines 178–197). -/
def holeskyHardforks : List (Hardfork × ForkCondition) :=
  [(.Frontier, .Block 0), (.Homestead, .Block 0), (.Dao, .Block 0),
   (.Tangerine, .Block 0), (.SpuriousDragon, .Block 0), (.Byzantium, .Block 0),
   (.Constantinople, .Block 0), (.Petersburg, .Block 0), (.Istanbul, .Block 0),
   (.MuirGlacier, .Block 0), (.Berlin, .Block 0), (.London, .Block 0),
   (.Paris, .TTD (some 0) 0),
   (.Shanghai, .Timestamp 1696000704), (.Cancun, .Timestamp 1707305664)]

/-- The hardfork table of the `DEV` static (spec.rs, lines 224–242). -/
def devHardforks : List (Hardfork × ForkCondition) :=
  [(.Frontier, .Block 0), (.Homestead, .Block 0), (.Dao, .Block 0),
   (.Tangerine, .Block 0), (.SpuriousDragon, .Block 0), (.Byzantium, .Block 0),
   (.Constantinople, .Block 0), (.Petersburg, .Block 0), (.Istanbul, .Block 0),
   (.MuirGlacier, .Block 0), (.Berlin, .Block 0), (.London, .Block 0),
   (.Paris, .TTD (some 0) 0), (.Shanghai, .Timestamp 0)]

/-! ## Test fixtures: minimal custom specifications -/

/-- A genesis config with every optional field absent. -/
def zeroChainConfig : ChainConfig :=
  { chain_id := 1, homestead_block := none, dao_fork_block := none,
    eip150_block := none, eip155_block := none, byzantium_block := none,
    constantinople_block := none, petersburg_block := none,
    istanbul_block := none, muir_glacier_block := none, berlin_block := none,
    london_block := none, arrow_glacier_block := none,
    gray_glacier_block := none, merge_netsplit_block := none,
    terminal_total_difficulty := none, shanghai_time := none,
    cancun_time := none }

/-- An all-zero genesis document. -/
def zeroGenesis : Genesis :=
  { config := zeroChainConfig, nonce := 0, timestamp := 0, extra_data := [],
    gas_limit := 0, difficulty := 0, mix_hash := 0, coinbase := 0,
    base_fee_per_gas := none, blob_gas_used := none, excess_blob_gas := none }

/-- A minimal custom specification carrying the given hardfork table (empty
genesis hash, zero genesis). -/
def specOf (hfs : List (Hardfork × ForkCondition)) : ChainSpec :=
  { chain := 1, genesisHash := [], genesis := zeroGenesis,
    paris_block_and_final_difficulty := none,
    fork_timestamps := ForkTimestamps.default, hardforks := hfs,
    deposit_contract := none,
    baseFeeParams := BaseFeeParamsKind.Constant BaseFeeParams.ethereum,
    prune_delete_limit := 0, snapshot_block_interval := 0 }

/-! ## Claim theorems -/

/-- The CRC-32 of the mainnet genesis hash: the seed of every mainnet fork
hash. -/
theorem mainnet_seed : ForkHash.ofBytes mainnetGenesisHashBytes = 0xfc64ec04 := by
  set_option maxRecDepth 20000 in decide

theorem fh_add_homestead : ForkHash.add 0xfc64ec04 1150000 = 2546123596 := by
  set_option maxRecDepth 20000 in decide

theorem fh_add_dao : ForkHash.add 2546123596 1920000 = 2446457160 := by
  set_option maxRecDepth 20000 in decide

theorem fh_add_tangerine : ForkHash.add 2446457160 2463000 = 2053429779 := by
  set_option maxRecDepth 20000 in decide

theorem fh_add_spurious : ForkHash.add 2053429779 2675000 = 1054694160 := by
  set_option maxRecDepth 20000 in decide

theorem fh_add_byzantium : ForkHash.add 1054694160 4370000 = 2685125412 := by
  set_option maxRecDepth 20000 in decide

theorem fh_add_constantinople : ForkHash.add 2685125412 7280000 = 1720561839 := by
  set_option maxRecDepth 20000 in decide

theorem fh_add_istanbul : ForkHash.add 1720561839 9069000 = 2275241520 := by
  set_option maxRecDepth 20000 in decide

theorem fh_add_muirglacier : ForkHash.add 2275241520 9200000 = 3760843153 := by
  set_option maxRecDepth 20000 in decide

theorem fh_add_berlin : ForkHash.add 3760843153 12244000 = 246694134 := by
  set_option maxRecDepth 20000 in decide

theorem fh_add_london : ForkHash.add 246694134 12965000 = 3071608701 := by
  set_option maxRecDepth 20000 in decide

theorem fh_add_arrowglacier : ForkHash.add 3071608701 13773000 = 549660668 := by
  set_option maxRecDepth 20000 in decide

theorem fh_add_grayglacier : ForkHash.add 549660668 15050000 = 0xf0afd0e3 := by
  set_option maxRecDepth 20000 in decide

theorem fh_add_shanghai : ForkHash.add 0xf0afd0e3 1681338455 = 0xdce96c2d := by
  set_option maxRecDepth 20000 in decide

theorem fh_add_cancun : ForkHash.add 0xdce96c2d 1710338135 = 0x9f3d2254 := by
  set_option maxRecDepth 20000 in decide

/-- C1: for the mainnet chain specification, `fork_id` returns exactly the
EIP-2124 pairs of the spec's concrete scenarios: head 0 → (0xfc64ec04,
1150000); head 15050000 → (0xf0afd0e3, 1681338455); head 20000000 at
timestamp 1681338455 → (0xdce96c2d, 1710338135); head 20000002 at timestamp
1710338135 → (0x9f3d2254, 0). -/
theorem mainnet_fork_id_scenarios :
    MAINNET.fork_id { Head.zero with number := 0 } =
      { hash := 0xfc64ec04, next := 1150000 }
  ∧ MAINNET.fork_id { Head.zero with number := 15050000 } =
      { hash := 0xf0afd0e3, next := 1681338455 }
  ∧ MAINNET.fork_id { Head.zero with number := 20000000, timestamp := 1681338455 } =
      { hash := 0xdce96c2d, next := 1710338135 }
  ∧ MAINNET.fork_id { Head.zero with number := 20000002, timestamp := 1710338135 } =
      { hash := 0x9f3d2254, next := 0 } := by
  refine ⟨?_, ?_, ?_, ?_⟩ <;>
    simp [ChainSpec.fork_id, ChainSpec.timestampPoints, MAINNET, mainnetHardforks,
      mainnetGenesis, Head.zero, fork_id_block_pass, fork_id_time_pass, forkBlockPoint,
      ForkCondition.active_at_head, ForkCondition.active_at_block,
      ForkCondition.active_at_timestamp, ForkCondition.active_at_ttd,
      ForkCondition.as_timestamp, Option.filter, u256_saturating_sub,
      mainnet_seed, fh_add_homestead, fh_add_dao, fh_add_tangerine, fh_add_spurious,
      fh_add_byzantium, fh_add_constantinople, fh_add_istanbul, fh_add_muirglacier,
      fh_add_berlin, fh_add_london, fh_add_arrowglacier, fh_add_grayglacier,
      fh_add_shanghai, fh_add_cancun]

/-- C2: `active_at_ttd` is true exactly for a TTD condition whose threshold
is at or below the saturating difference `ttd − difficulty` (zero on
underflow, never wrapping), and is false for every `Block`, `Timestamp` and
`Never` condition. -/
theorem active_at_ttd_characterization (c : ForkCondition) (ttd d : Nat) :
    (c.active_at_ttd ttd d = true ↔
      ∃ fb T, c = ForkCondition.TTD fb T ∧ T ≤ u256_saturating_sub ttd d)
  ∧ u256_saturating_sub ttd d = (if d ≤ ttd then ttd - d else 0)
  ∧ (∀ n, (ForkCondition.Block n).active_at_ttd ttd d = false)
  ∧ (∀ t, (ForkCondition.Timestamp t).active_at_ttd ttd d = false)
  ∧ ForkCondition.Never.active_at_ttd ttd d = false := by
  refine ⟨?_, ?_, fun n => rfl, fun t => rfl, rfl⟩
  · constructor
    · intro h
      cases c with
      | TTD fb T =>
        refine ⟨fb, T, rfl, ?_⟩
        simpa [ForkCondition.active_at_ttd] using h
      | Block n => simp [ForkCondition.active_at_ttd] at h
      | Timestamp t => simp [ForkCondition.active_at_ttd] at h
      | Never => simp [ForkCondition.active_at_ttd] at h
    · rintro ⟨fb, T, rfl, h⟩
      simpa [ForkCondition.active_at_ttd] using h
  · unfold u256_saturating_sub
    split <;> omega

/-- C5 counterexample: the claim's dominance conditions (number, timestamp,
total difficulty) do not mention the head's own difficulty, yet
`active_at_ttd` subtracts it: with threshold 5, the head with total
difficulty 10 and difficulty 0 activates the fork while the dominating head
with the same total difficulty but difficulty 10 does not. -/
theorem monotonicity_counterexample :
    (0 : Nat) ≤ 0 ∧ (0 : Nat) ≤ 0 ∧ (10 : Nat) ≤ 10
  ∧ (ForkCondition.TTD none 5).active_at_head
      { number := 0, hash := 0, timestamp := 0, difficulty := 0, total_difficulty := 10 } = true
  ∧ (ForkCondition.TTD none 5).active_at_head
      { number := 0, hash := 0, timestamp := 0, difficulty := 10, total_difficulty := 10 } = false := by
  decide

/-- C5 (amended): if `H₂` dominates `H₁` in number, timestamp, total
difficulty and the saturating difference `total_difficulty − difficulty`,
then every fork condition active at `H₁` (per `active_at_head`) is active
at `H₂`. -/
theorem active_at_head_monotone (c : ForkCondition) (h1 h2 : Head)
    (hn : h1.number ≤ h2.number) (ht : h1.timestamp ≤ h2.timestamp)
    (htd : h1.total_difficulty ≤ h2.total_difficulty)
    (hsd : u256_saturating_sub h1.total_difficulty h1.difficulty ≤
      u256_saturating_sub h2.total_difficulty h2.difficulty)
    (hact : c.active_at_head h1 = true) : c.active_at_head h2 = true := by
  unfold u256_saturating_sub at hsd
  cases c with
  | Block n =>
    simp [ForkCondition.active_at_head, ForkCondition.active_at_block,
      ForkCondition.active_at_timestamp, ForkCondition.active_at_ttd] at hact ⊢
    omega
  | Timestamp t =>
    simp [ForkCondition.active_at_head, ForkCondition.active_at_block,
      ForkCondition.active_at_timestamp, ForkCondition.active_at_ttd] at hact ⊢
    omega
  | Never =>
    simp [ForkCondition.active_at_head, ForkCondition.active_at_block,
      ForkCondition.active_at_timestamp, ForkCondition.active_at_ttd] at hact
  | TTD fb td =>
    cases fb with
    | none =>
      simp [ForkCondition.active_at_head, ForkCondition.active_at_block,
        ForkCondition.active_at_timestamp, ForkCondition.active_at_ttd,
        u256_saturating_sub] at hact ⊢
      omega
    | some b =>
      simp [ForkCondition.active_at_head, ForkCondition.active_at_block,
        ForkCondition.active_at_timestamp, ForkCondition.active_at_ttd,
        u256_saturating_sub] at hact ⊢
      omega

/-- C5 witness: the amended monotonicity at a concrete instance — `Block 3`
active at head number 3 stays active at head number 5. -/
theorem active_at_head_monotone_witness :
    (ForkCondition.Block 3).active_at_head
      { number := 5, hash := 0, timestamp := 0, difficulty := 0, total_difficulty := 0 } = true :=
  active_at_head_monotone (ForkCondition.Block 3)
    { number := 3, hash := 0, timestamp := 0, difficulty := 0, total_difficulty := 0 }
    { number := 5, hash := 0, timestamp := 0, difficulty := 0, total_difficulty := 0 }
    (by decide) (by decide) (by decide) (by decide) (by decide)

/-! ### General lemmas about the two fork-id passes -/

/-- An entry without a block point (a plain-TTD, timestamp or `Never`
condition) is invisible to the block pass wherever it sits. -/
theorem fork_id_block_pass_inert (head : Head) (e : Hardfork × ForkCondition)
    (he : forkBlockPoint e.2 = none) :
    ∀ (xs ys : List (Hardfork × ForkCondition)) (fh cur : Nat),
      fork_id_block_pass head (xs ++ e :: ys) fh cur =
        fork_id_block_pass head (xs ++ ys) fh cur := by
  intro xs
  induction xs with
  | nil =>
    intro ys fh cur
    obtain ⟨hf, c⟩ := e
    simp only [List.nil_append]
    simp [fork_id_block_pass, he]
  | cons a xs ih =>
    intro ys fh cur
    obtain ⟨ahf, ac⟩ := a
    simp only [List.cons_append]
    cases hbp : forkBlockPoint ac with
    | none => simp [fork_id_block_pass, hbp, ih]
    | some b =>
      by_cases hact : ac.active_at_head head = true
      · by_cases hne : b = cur <;> simp [fork_id_block_pass, hbp, hact, hne, ih]
      · simp [fork_id_block_pass, hbp, hact]

/-- Dropping a `none`-mapped element in the middle of a list leaves its
`filterMap` unchanged. -/
theorem filterMap_middle_none {α β : Type} (f : α → Option β) (xs ys : List α)
    (e : α) (he : f e = none) :
    (xs ++ e :: ys).filterMap f = (xs ++ ys).filterMap f := by
  simp [List.filterMap_append, List.filterMap_cons, he]

/-- Two adjacent entries with the same condition behave like one in the
block pass: the shared point folds at most once. -/
theorem fork_id_block_pass_dup (head : Head) (hf1 hf2 : Hardfork) (c : ForkCondition) :
    ∀ (xs ys : List (Hardfork × ForkCondition)) (fh cur : Nat),
      fork_id_block_pass head (xs ++ (hf1, c) :: (hf2, c) :: ys) fh cur =
        fork_id_block_pass head (xs ++ (hf1, c) :: ys) fh cur := by
  intro xs
  induction xs with
  | nil =>
    intro ys fh cur
    simp only [List.nil_append]
    cases hbp : forkBlockPoint c with
    | none => simp [fork_id_block_pass, hbp]
    | some b =>
      by_cases hact : c.active_at_head head = true
      · by_cases hne : b = cur <;> simp [fork_id_block_pass, hbp, hact, hne]
      · simp [fork_id_block_pass, hbp, hact]
  | cons a xs ih =>
    intro ys fh cur
    obtain ⟨ahf, ac⟩ := a
    simp only [List.cons_append]
    cases hbp : forkBlockPoint ac with
    | none => simp [fork_id_block_pass, hbp, ih]
    | some b =>
      by_cases hact : ac.active_at_head head = true
      · by_cases hne : b = cur <;> simp [fork_id_block_pass, hbp, hact, hne, ih]
      · simp [fork_id_block_pass, hbp, hact]

/-- Two adjacent equal timestamps behave like one in the timestamp pass. -/
theorem fork_id_time_pass_dup (head : Head) :
    ∀ (ps : List Nat) (t : Nat) (qs : List Nat) (fh cur : Nat),
      fork_id_time_pass head (ps ++ t :: t :: qs) fh cur =
        fork_id_time_pass head (ps ++ t :: qs) fh cur := by
  intro ps
  induction ps with
  | nil =>
    intro t qs fh cur
    simp only [List.nil_append]
    by_cases hact : (ForkCondition.Timestamp t).active_at_head head = true
    · by_cases hne : t = cur
      · subst hne
        simp [fork_id_time_pass, hact]
      · simp [fork_id_time_pass, hact, hne]
    · simp [fork_id_time_pass, hact]
  | cons p ps ih =>
    intro t qs fh cur
    simp only [List.cons_append]
    by_cases hact : (ForkCondition.Timestamp p).active_at_head head = true
    · by_cases hne : p = cur
      · subst hne
        simp [fork_id_time_pass, hact, ih]
      · simp [fork_id_time_pass, hact, hne, ih]
    · simp [fork_id_time_pass, hact]

/-- A condition whose block point is 0 is active at every head. -/
theorem blockPoint_zero_active (c : ForkCondition) (head : Head)
    (h : forkBlockPoint c = some 0) : c.active_at_head head = true := by
  cases c with
  | Block b =>
    simp only [forkBlockPoint, Option.some.injEq] at h
    subst h
    simp [ForkCondition.active_at_head, ForkCondition.active_at_block]
  | TTD fb td =>
    cases fb with
    | some b =>
      simp only [forkBlockPoint, Option.some.injEq] at h
      subst h
      simp [ForkCondition.active_at_head, ForkCondition.active_at_block]
    | none => simp [forkBlockPoint] at h
  | Timestamp t => simp [forkBlockPoint] at h
  | Never => simp [forkBlockPoint] at h

/-- A condition with a block point has no timestamp. -/
theorem blockPoint_as_timestamp (c : ForkCondition) (b : Nat)
    (h : forkBlockPoint c = some b) : c.as_timestamp = none := by
  cases c with
  | Block n => rfl
  | TTD fb td => rfl
  | Timestamp t => simp [forkBlockPoint] at h
  | Never => rfl

/-- A prefix whose block points are all 0 leaves the block pass untouched
when the running applied point is 0: every such entry is active and folds
nothing. -/
theorem fork_id_block_pass_zero_prefix (head : Head) :
    ∀ (xs : List (Hardfork × ForkCondition)),
      (∀ e ∈ xs, forkBlockPoint e.2 = none ∨ forkBlockPoint e.2 = some 0) →
      ∀ (ys : List (Hardfork × ForkCondition)) (fh : Nat),
        fork_id_block_pass head (xs ++ ys) fh 0 = fork_id_block_pass head ys fh 0 := by
  intro xs
  induction xs with
  | nil => intro _ ys fh; rfl
  | cons a xs ih =>
    intro hall ys fh
    obtain ⟨ahf, ac⟩ := a
    have hrest : ∀ e ∈ xs, forkBlockPoint e.2 = none ∨ forkBlockPoint e.2 = some 0 :=
      fun e he => hall e (List.mem_cons_of_mem _ he)
    simp only [List.cons_append]
    rcases hall (ahf, ac) (List.mem_cons_self _ _) with h | h
    · calc fork_id_block_pass head ((ahf, ac) :: (xs ++ ys)) fh 0
          = fork_id_block_pass head (xs ++ ys) fh 0 := by
            simp [fork_id_block_pass, h]
        _ = fork_id_block_pass head ys fh 0 := ih hrest ys fh
    · have hact := blockPoint_zero_active ac head h
      calc fork_id_block_pass head ((ahf, ac) :: (xs ++ ys)) fh 0
          = fork_id_block_pass head (xs ++ ys) fh 0 := by
            simp [fork_id_block_pass, h, hact]
        _ = fork_id_block_pass head ys fh 0 := ih hrest ys fh

/-- Inserting an absent key into the B-tree map splits the original list at
the key's sorted position. -/
theorem btreeInsert_decomp (k : Hardfork) (v : ForkCondition) :
    ∀ (l : List (Hardfork × ForkCondition)), btreeLookup l k = none →
      ∃ xs ys, l = xs ++ ys ∧ btreeInsert k v l = xs ++ (k, v) :: ys := by
  intro l
  induction l with
  | nil => exact fun _ => ⟨[], [], rfl, rfl⟩
  | cons a rest ih =>
    intro h
    obtain ⟨k', v'⟩ := a
    have hne : ¬(k = k') := by
      intro he
      simp [btreeLookup, he] at h
    have hrest : btreeLookup rest k = none := by
      simpa [btreeLookup, hne] using h
    by_cases hidx : k.idx < k'.idx
    · exact ⟨[], (k', v') :: rest, rfl, by simp [btreeInsert, hne, hidx]⟩
    · obtain ⟨xs, ys, hsplit, hins⟩ := ih hrest
      exact ⟨(k', v') :: xs, ys, by simp [hsplit],
        by simp [btreeInsert, hne, hidx, hins]⟩

/-- `satisfy` yields a head for every condition except `Never` (whose arm is
`unreachable!` in the source). -/
theorem satisfy_isSome (s : ChainSpec) (c : ForkCondition)
    (hc : c ≠ ForkCondition.Never) : (s.satisfy c).isSome = true := by
  cases c with
  | Block n => rfl
  | TTD fb td => rfl
  | Timestamp t =>
    cases hlb : s.last_block_fork_before_merge_or_timestamp <;>
      simp [ChainSpec.satisfy, hlb]
  | Never => exact absurd rfl hc

/-- C7 counterexample: `BTreeMap::insert` replaces the condition at an
existing key, so inserting `(Homestead, Never)` into a spec that activates
Homestead at block 1 removes that activation and changes `fork_id` at head
number 1 — the claim's unqualified "inserting (hf, Never) leaves fork_id
unchanged" fails. -/
theorem never_insert_counterexample :
    ({ specOf [(.Frontier, .Block 0), (.Homestead, .Block 1)] with
        hardforks := btreeInsert .Homestead ForkCondition.Never
          [(.Frontier, .Block 0), (.Homestead, .Block 1)] } : ChainSpec).fork_id
      { Head.zero with number := 1 }
    ≠ (specOf [(.Frontier, .Block 0), (.Homestead, .Block 1)]).fork_id
      { Head.zero with number := 1 } := by
  set_option maxRecDepth 20000 in decide

/-- C7 (amended): inserting `(hf, Never)` for a hardfork `hf` not already in
the map leaves `fork_id` unchanged at every head; an absent hardfork reads
back as `Never`; `hardfork_fork_id` returns `None` exactly for a `Never`
condition; and `hardfork_fork_filter` returns `None` for a `Never` condition
rather than erroring. -/
theorem never_inertness (s : ChainSpec) (hf : Hardfork) (head : Head)
    (habsent : btreeLookup s.hardforks hf = none) :
    ({ s with hardforks := btreeInsert hf ForkCondition.Never s.hardforks } : ChainSpec).fork_id head
        = s.fork_id head
  ∧ s.fork hf = ForkCondition.Never
  ∧ (∀ hf2, s.hardfork_fork_id hf2 = none ↔ s.fork hf2 = ForkCondition.Never)
  ∧ (∀ hf2, s.fork hf2 = ForkCondition.Never → s.hardfork_fork_filter hf2 = none) := by
  refine ⟨?_, ?_, ?_, ?_⟩
  · obtain ⟨xs, ys, hsplit, hins⟩ :=
      btreeInsert_decomp hf ForkCondition.Never s.hardforks habsent
    simp only [ChainSpec.fork_id, ChainSpec.timestampPoints]
    rw [hins, hsplit]
    rw [fork_id_block_pass_inert head (hf, ForkCondition.Never) rfl xs ys]
    rw [filterMap_middle_none _ xs ys (hf, ForkCondition.Never) rfl]
  · simp [ChainSpec.fork, habsent]
  · intro hf2
    constructor
    · intro h
      cases hc : s.fork hf2 with
      | Never => rfl
      | Block n => simp [ChainSpec.hardfork_fork_id, hc, ChainSpec.satisfy] at h
      | TTD fb td => simp [ChainSpec.hardfork_fork_id, hc, ChainSpec.satisfy] at h
      | Timestamp t =>
        cases hlb : s.last_block_fork_before_merge_or_timestamp <;>
          simp [ChainSpec.hardfork_fork_id, hc, ChainSpec.satisfy, hlb] at h
    · intro h
      simp [ChainSpec.hardfork_fork_id, h]
  · intro hf2 h
    simp [ChainSpec.hardfork_fork_filter, h]

/-- C7 witness: the amended never-inertness at a concrete spec — adding a
`Never` entry for the absent Cancun hardfork to a Frontier/Homestead spec. -/
theorem never_inertness_witness :
    ({ specOf [(.Frontier, .Block 0), (.Homestead, .Block 1)] with
        hardforks := btreeInsert .Cancun ForkCondition.Never
          [(.Frontier, .Block 0), (.Homestead, .Block 1)] } : ChainSpec).fork_id
        { Head.zero with number := 1 }
      = (specOf [(.Frontier, .Block 0), (.Homestead, .Block 1)]).fork_id
        { Head.zero with number := 1 }
  ∧ (specOf [(.Frontier, .Block 0), (.Homestead, .Block 1)]).fork .Cancun
      = ForkCondition.Never
  ∧ (∀ hf2, (specOf [(.Frontier, .Block 0), (.Homestead, .Block 1)]).hardfork_fork_id hf2 = none
      ↔ (specOf [(.Frontier, .Block 0), (.Homestead, .Block 1)]).fork hf2 = ForkCondition.Never)
  ∧ (∀ hf2, (specOf [(.Frontier, .Block 0), (.Homestead, .Block 1)]).fork hf2 = ForkCondition.Never
      → (specOf [(.Frontier, .Block 0), (.Homestead, .Block 1)]).hardfork_fork_filter hf2 = none) :=
  never_inertness (specOf [(.Frontier, .Block 0), (.Homestead, .Block 1)]) .Cancun
    { Head.zero with number := 1 } rfl

/-- C4 counterexample: two consecutive forks with the same activation point
5 but different condition variants (a known-block TTD and a plain block
fork): at a head whose total difficulty activates the TTD forks but whose
number is below 5, the fork hash of the pair differs from the fork hash of
either single-fork variant. -/
theorem duplicate_point_counterexample :
    ((specOf [(.Frontier, .TTD (some 5) 100), (.Homestead, .Block 5),
        (.Dao, .TTD (some 7) 200)]).fork_id
      { Head.zero with total_difficulty := 1000 }).hash
      ≠ ((specOf [(.Frontier, .TTD (some 5) 100), (.Dao, .TTD (some 7) 200)]).fork_id
        { Head.zero with total_difficulty := 1000 }).hash
  ∧ ((specOf [(.Frontier, .TTD (some 5) 100), (.Homestead, .Block 5),
        (.Dao, .TTD (some 7) 200)]).fork_id
      { Head.zero with total_difficulty := 1000 }).hash
      ≠ ((specOf [(.Homestead, .Block 5), (.Dao, .TTD (some 7) 200)]).fork_id
        { Head.zero with total_difficulty := 1000 }).hash := by
  set_option maxRecDepth 20000 in decide

/-- C4 (amended): two consecutive hardforks with identical activation
conditions fold their shared point into the fork hash exactly once — the
fork id at every head equals that of the specification with only one of
them. -/
theorem duplicate_fork_dedup (s : ChainSpec) (xs ys : List (Hardfork × ForkCondition))
    (hf1 hf2 : Hardfork) (c : ForkCondition) (head : Head)
    (hdecomp : s.hardforks = xs ++ (hf1, c) :: (hf2, c) :: ys) :
    s.fork_id head = ({ s with hardforks := xs ++ (hf1, c) :: ys } : ChainSpec).fork_id head := by
  simp only [ChainSpec.fork_id, ChainSpec.timestampPoints]
  rw [hdecomp]
  rw [fork_id_block_pass_dup head hf1 hf2 c xs ys]
  cases hB : fork_id_block_pass head (xs ++ (hf1, c) :: ys)
      (ForkHash.ofBytes s.genesisHash) 0 with
  | inr fid => rfl
  | inl pr =>
    cases hfe : (c.as_timestamp).filter fun time => decide (s.genesis.timestamp < time) with
    | none =>
      simp [List.filterMap_append, List.filterMap_cons, hfe]
    | some t =>
      simp only [List.filterMap_append, List.filterMap_cons, hfe]
      exact fork_id_time_pass_dup head _ t _ pr.1 pr.2

/-- C4 witness: the spec's concrete scenario — `{Frontier@0, Homestead@1,
Tangerine@1}` at head number 2 has the fork id of `{Frontier@0,
Homestead@1}`. -/
theorem duplicate_fork_dedup_witness :
    (specOf [(.Frontier, .Block 0), (.Homestead, .Block 1), (.Tangerine, .Block 1)]).fork_id
        { Head.zero with number := 2 }
      = ({ specOf [(.Frontier, .Block 0), (.Homestead, .Block 1), (.Tangerine, .Block 1)] with
          hardforks := [(.Frontier, .Block 0), (.Homestead, .Block 1)] } : ChainSpec).fork_id
        { Head.zero with number := 2 } :=
  duplicate_fork_dedup
    (specOf [(.Frontier, .Block 0), (.Homestead, .Block 1), (.Tangerine, .Block 1)])
    [(.Frontier, .Block 0)] [] .Homestead .Tangerine (.Block 1)
    { Head.zero with number := 2 } rfl

/-- C3 counterexample: in a spec violating the monotone-activation invariant
(a block-0 fork listed after a block-5 fork in canonical order), the
block-0 fork does fold 0 into the fork hash, so the claim's unqualified
"for every chain specification" fails. -/
theorem genesis_skipping_counterexample :
    (specOf [(.Frontier, .Block 5), (.Homestead, .Block 0)]).fork_id
      { Head.zero with number := 5 }
    ≠ (specOf [(.Frontier, .Block 5)]).fork_id { Head.zero with number := 5 } := by
  set_option maxRecDepth 20000 in decide

/-- C3 (amended): in a specification whose block activation points are
non-decreasing in canonical order (invariant I4), a hardfork activating at
block 0 contributes nothing to `fork_id`; a hardfork activating at the
genesis timestamp contributes nothing in any specification — in both cases
the fork id equals that of the same specification without the fork. -/
theorem genesis_skipping_fork_id (s : ChainSpec) (xs ys : List (Hardfork × ForkCondition))
    (hf : Hardfork) (c : ForkCondition) (head : Head)
    (hdecomp : s.hardforks = xs ++ (hf, c) :: ys)
    (hc : (forkBlockPoint c = some 0 ∧
        List.Sorted (· ≤ ·) (s.hardforks.filterMap fun e => forkBlockPoint e.2))
      ∨ c = ForkCondition.Timestamp s.genesis.timestamp) :
    s.fork_id head = ({ s with hardforks := xs ++ ys } : ChainSpec).fork_id head := by
  simp only [ChainSpec.fork_id, ChainSpec.timestampPoints]
  rw [hdecomp]
  rcases hc with ⟨hzero, hsorted⟩ | htime
  · -- the block-0 case: all block points in the prefix are 0
    rw [hdecomp] at hsorted
    have hxs : ∀ e ∈ xs, forkBlockPoint e.2 = none ∨ forkBlockPoint e.2 = some 0 := by
      intro e he
      cases hbe : forkBlockPoint e.2 with
      | none => exact Or.inl rfl
      | some b =>
        refine Or.inr ?_
        have hb0 : b ≤ 0 := by
          have hmem : b ∈ xs.filterMap fun e => forkBlockPoint e.2 :=
            List.mem_filterMap.mpr ⟨e, he, hbe⟩
          have hrest : (0 : Nat) ∈
              ((hf, c) :: ys).filterMap fun e => forkBlockPoint e.2 := by
            simp [List.filterMap_cons, hzero]
          have := (List.pairwise_append.mp (by
            simpa [List.filterMap_append] using hsorted)).2.2
          exact this b hmem 0 hrest
        simp [Nat.le_zero.mp hb0, hbe]
    have hmid : forkBlockPoint c = none ∨ forkBlockPoint c = some 0 := Or.inr hzero
    have hall : ∀ e ∈ xs ++ [(hf, c)],
        forkBlockPoint e.2 = none ∨ forkBlockPoint e.2 = some 0 := by
      intro e he
      rcases List.mem_append.mp he with h | h
      · exact hxs e h
      · rcases List.mem_singleton.mp h with rfl
        exact hmid
    have hblock1 : fork_id_block_pass head (xs ++ (hf, c) :: ys)
        (ForkHash.ofBytes s.genesisHash) 0 =
        fork_id_block_pass head ys (ForkHash.ofBytes s.genesisHash) 0 := by
      have := fork_id_block_pass_zero_prefix head (xs ++ [(hf, c)]) hall ys
        (ForkHash.ofBytes s.genesisHash)
      simpa [List.append_assoc] using this
    have hblock2 : fork_id_block_pass head (xs ++ ys)
        (ForkHash.ofBytes s.genesisHash) 0 =
        fork_id_block_pass head ys (ForkHash.ofBytes s.genesisHash) 0 :=
      fork_id_block_pass_zero_prefix head xs hxs ys (ForkHash.ofBytes s.genesisHash)
    rw [hblock1, hblock2]
    rw [filterMap_middle_none _ xs ys (hf, c)
      (by simp [blockPoint_as_timestamp c 0 hzero])]
  · -- the genesis-timestamp case: the activation is filtered out of the
    -- timestamp stream and has no block point
    subst htime
    rw [fork_id_block_pass_inert head (hf, ForkCondition.Timestamp s.genesis.timestamp) rfl xs ys]
    rw [filterMap_middle_none _ xs ys (hf, ForkCondition.Timestamp s.genesis.timestamp)
      (by simp [ForkCondition.as_timestamp, Option.filter])]

/-- C3 witness: the amended genesis skipping at a concrete spec — removing
`Frontier@0` from a `{Frontier@0, Homestead@1}` spec leaves the fork id at
head number 1 unchanged. -/
theorem genesis_skipping_witness :
    (specOf [(.Frontier, .Block 0), (.Homestead, .Block 1)]).fork_id
        { Head.zero with number := 1 }
      = ({ specOf [(.Frontier, .Block 0), (.Homestead, .Block 1)] with
          hardforks := [(.Homestead, .Block 1)] } : ChainSpec).fork_id
        { Head.zero with number := 1 } :=
  genesis_skipping_fork_id (specOf [(.Frontier, .Block 0), (.Homestead, .Block 1)])
    [] [(.Homestead, .Block 1)] .Frontier (.Block 0) { Head.zero with number := 1 }
    rfl (Or.inl ⟨rfl, by decide⟩)

/-- `find?` returns the head of the filtered list. -/
theorem find?_eq_head_filter {α : Type} (p : α → Bool) (l : List α) :
    l.find? p = (l.filter p).head? := by
  induction l with
  | nil => rfl
  | cons a l ih =>
    cases h : p a with
    | true =>
      rw [List.find?_cons_of_pos l h, List.filter_cons_of_pos h]
      rfl
    | false =>
      rw [List.find?_cons_of_neg l (by simp [h]), List.filter_cons_of_neg (by simp [h]), ih]

/-- C6: `base_fee_params` on a `Variable` table returns the last entry (in
table order, i.e. the first in the reverse walk) whose hardfork is active at
the timestamp; with no active entry it returns the first entry of a
non-empty table and the Ethereum defaults for an empty one; on a `Constant`
specification it returns the constant. -/
theorem base_fee_params_lookup (s : ChainSpec) (t : Nat) :
    (∀ table, s.baseFeeParams = BaseFeeParamsKind.Variable table →
      s.base_fee_params t =
        match (table.filter fun e => s.is_fork_active_at_timestamp e.1 t).getLast? with
        | some e => e.2
        | none =>
          match table with
          | [] => BaseFeeParams.ethereum
          | e :: _ => e.2)
  ∧ (∀ p, s.baseFeeParams = BaseFeeParamsKind.Constant p → s.base_fee_params t = p) := by
  constructor
  · intro table htable
    simp only [ChainSpec.base_fee_params, htable]
    rw [find?_eq_head_filter, List.filter_reverse, List.head?_reverse]
    cases hlast : (table.filter fun e => s.is_fork_active_at_timestamp e.1 t).getLast? with
    | some e => simp [hlast]
    | none =>
      cases table with
      | nil => rfl
      | cons e rest => simp [hlast]
  · intro p hp
    simp [ChainSpec.base_fee_params, hp]

/-- C8: the derived genesis header has the empty-withdrawals root exactly
when Shanghai is active at the genesis timestamp (absent otherwise), and the
Cancun triple (zero parent beacon root, the genesis blob gas values
defaulted to 0) exactly when Cancun is active at the genesis timestamp (all
three absent otherwise). -/
theorem genesis_header_fork_fields (s : ChainSpec) :
    ((s.genesis_header.withdrawals_root = some EMPTY_WITHDRAWALS) ↔
      (s.fork .Shanghai).active_at_timestamp s.genesis.timestamp = true)
  ∧ ((s.genesis_header.withdrawals_root = none) ↔
      ¬ (s.fork .Shanghai).active_at_timestamp s.genesis.timestamp = true)
  ∧ ((s.genesis_header.parent_beacon_block_root = some 0
      ∧ s.genesis_header.blob_gas_used = some (s.genesis.blob_gas_used.getD 0)
      ∧ s.genesis_header.excess_blob_gas = some (s.genesis.excess_blob_gas.getD 0)) ↔
      (s.fork .Cancun).active_at_timestamp s.genesis.timestamp = true)
  ∧ ((s.genesis_header.parent_beacon_block_root = none
      ∧ s.genesis_header.blob_gas_used = none
      ∧ s.genesis_header.excess_blob_gas = none) ↔
      ¬ (s.fork .Cancun).active_at_timestamp s.genesis.timestamp = true) := by
  by_cases hsh : (s.fork .Shanghai).active_at_timestamp s.genesis.timestamp = true <;>
    by_cases hca : (s.fork .Cancun).active_at_timestamp s.genesis.timestamp = true <;>
      simp [ChainSpec.genesis_header, hsh, hca]

/-- C9 counterexample: with a TTD condition carrying `fork_block = Some 5`
in a spec that records no Paris block, the display renderer still replaces
the fork block (with `None`) and prints "network is not known to be
merged" — against the claim's "substituted only when the spec records one"
reading, under which the line would have stated the network is known to be
merged. -/
theorem display_merge_counterexample :
    (DisplayHardforks.new [(.Paris, .TTD (some 5) 100)] none).with_merge
      = [{ name := "Paris", activated_at := ForkCondition.TTD none 100, eip := none }]
  ∧ ForkCondition.TTD (none : Option Nat) 100 ≠ ForkCondition.TTD (some 5) 100
  ∧ DisplayFork.fmt { name := "Paris", activated_at := ForkCondition.TTD none 100, eip := none }
      = some (padTo32 "Paris" ++ " @" ++ toString (100 : Nat) ++ " (" ++
          "network is not known to be merged" ++ ")\n") := by
  refine ⟨rfl, by decide, rfl⟩

/-- C9 (amended): the merge display group consists of exactly the TTD
hardforks in canonical order, each with its fork block replaced by the
spec's recorded Paris block (`None` replacing a known block when the spec
records none); a TTD line states "network is known to be merged" precisely
when the recorded Paris block is present, else "network is not known to be
merged", and the two texts differ. -/
theorem display_merge_group (hfs : List (Hardfork × ForkCondition)) (kp : Option Nat) :
    (DisplayHardforks.new hfs kp).with_merge
      = hfs.filterMap (fun e =>
          match e.2 with
          | ForkCondition.TTD _ td =>
            some ({ name := e.1.name, activated_at := ForkCondition.TTD kp td,
                    eip := none } : DisplayFork)
          | _ => none)
  ∧ (∀ name td, DisplayFork.fmt
        { name := name, activated_at := ForkCondition.TTD kp td, eip := none }
      = some (padTo32 name ++ " @" ++ toString td ++ " (" ++
          (if kp.isSome then "network is known to be merged"
           else "network is not known to be merged") ++ ")\n"))
  ∧ ("network is known to be merged" : String) ≠ "network is not known to be merged" := by
  refine ⟨?_, ?_, by decide⟩
  · induction hfs with
    | nil => rfl
    | cons a rest ih =>
      obtain ⟨hf, c⟩ := a
      cases c <;> simp [DisplayHardforks.new, List.filterMap_cons, ih]
  · intro name td
    simp [DisplayFork.fmt, DisplayFork.name_with_eip]

/-- Looking up a key other than the inserted one reads the original map. -/
theorem btreeLookup_insert_ne (k k' : Hardfork) (v : ForkCondition) (hne : k' ≠ k) :
    ∀ m, btreeLookup (btreeInsert k v m) k' = btreeLookup m k' := by
  intro m
  induction m with
  | nil => simp [btreeInsert, btreeLookup, hne]
  | cons a rest ih =>
    obtain ⟨ka, va⟩ := a
    by_cases h1 : k = ka
    · subst h1
      simp [btreeInsert, btreeLookup, hne]
    · simp only [btreeInsert, h1, if_false]
      by_cases h2 : k.idx < ka.idx
      · simp [h2, btreeLookup, hne]
      · by_cases h3 : k' = ka <;> simp [h2, btreeLookup, h3, ih]

/-- Collecting entries whose keys all differ from `k` does not change the
lookup at `k`. -/
theorem btreeLookup_collect_ne (k : Hardfork) :
    ∀ (l m : List (Hardfork × ForkCondition)), (∀ e ∈ l, e.1 ≠ k) →
      btreeLookup (btreeCollect l m) k = btreeLookup m k := by
  intro l
  induction l with
  | nil => intro m _; rfl
  | cons a l ih =>
    intro m hall
    calc btreeLookup (btreeCollect l (btreeInsert a.1 a.2 m)) k
        = btreeLookup (btreeInsert a.1 a.2 m) k :=
          ih _ fun e he => hall e (List.mem_cons_of_mem _ he)
      _ = btreeLookup m k :=
          btreeLookup_insert_ne a.1 k a.2
            (Ne.symm (hall a (List.mem_cons_self _ _))).symm.symm m

/-- The adapter's hardfork map never receives the Frontier key. -/
theorem from_genesis_hardforks_no_frontier (g : Genesis) :
    btreeLookup (from_genesis_hardforks g) .Frontier = none := by
  have hblockKeys : ∀ e ∈ (hardfork_opts g).filterMap
      (fun e => e.2.map fun block => (e.1, ForkCondition.Block block)),
      e.1 ≠ Hardfork.Frontier := by
    intro e he
    obtain ⟨a, ha, hfa⟩ := List.mem_filterMap.mp he
    cases h2 : a.2 with
    | none => rw [h2] at hfa; simp at hfa
    | some b =>
      rw [h2] at hfa
      have he1 : e = (a.1, ForkCondition.Block b) := by simpa using hfa.symm
      subst he1
      simp only [hardfork_opts] at ha
      simp at ha
      rcases ha with rfl | rfl | rfl | rfl | rfl | rfl | rfl | rfl | rfl | rfl |
        rfl | rfl | rfl <;> simp
  have htimeKeys : ∀ e ∈ ([(Hardfork.Shanghai, g.config.shanghai_time),
      (Hardfork.Cancun, g.config.cancun_time)]).filterMap
      (fun e => e.2.map fun time => (e.1, ForkCondition.Timestamp time)),
      e.1 ≠ Hardfork.Frontier := by
    intro e he
    obtain ⟨a, ha, hfa⟩ := List.mem_filterMap.mp he
    cases h2 : a.2 with
    | none => rw [h2] at hfa; simp at hfa
    | some tt =>
      rw [h2] at hfa
      have he1 : e = (a.1, ForkCondition.Timestamp tt) := by simpa using hfa.symm
      subst he1
      simp at ha
      rcases ha with rfl | rfl <;> simp
  have h0 : btreeLookup (btreeCollect ((hardfork_opts g).filterMap
      (fun e => e.2.map fun block => (e.1, ForkCondition.Block block))) [])
      Hardfork.Frontier = none := by
    rw [btreeLookup_collect_ne Hardfork.Frontier _ [] hblockKeys]
    rfl
  simp only [from_genesis_hardforks]
  rw [btreeLookup_collect_ne Hardfork.Frontier _ _ htimeKeys]
  cases httd : g.config.terminal_total_difficulty with
  | none => simpa [httd] using h0
  | some ttd =>
    simp only [httd]
    rw [btreeLookup_insert_ne Hardfork.Paris Hardfork.Frontier _ (by decide)]
    exact h0

/-- C10: a chain specification produced by the genesis adapter never
contains the Frontier hardfork — `fork(Frontier)` is `Never` for every input
document (the adapter's block-fork table starts at Homestead) — while every
well-known built-in specification activates Frontier at block 0. -/
theorem genesis_adapter_no_frontier (g : Genesis) :
    (ChainSpec.from_genesis g).fork .Frontier = ForkCondition.Never
  ∧ btreeLookup (ChainSpec.from_genesis g).hardforks .Frontier = none
  ∧ MAINNET.fork .Frontier = ForkCondition.Block 0
  ∧ btreeLookup goerliHardforks .Frontier = some (ForkCondition.Block 0)
  ∧ btreeLookup sepoliaHardforks .Frontier = some (ForkCondition.Block 0)
  ∧ btreeLookup holeskyHardforks .Frontier = some (ForkCondition.Block 0)
  ∧ btreeLookup devHardforks .Frontier = some (ForkCondition.Block 0) := by
  have h := from_genesis_hardforks_no_frontier g
  exact ⟨by simp [ChainSpec.fork, ChainSpec.from_genesis, h],
    by simpa [ChainSpec.from_genesis] using h,
    by decide, by decide, by decide, by decide, by decide⟩
